import Mathlib

/-!
Verification development for the event-poster article bot (`app.py`).

The file shallowly embeds the program's core: the provider registry
(`AI_PROVIDERS`), the failed-key tracking (`failed_keys`), the failover
dispatcher (`extract_event_info`), the media normalizers
(`image_to_base64`, `pdf_to_images`) and the webhook handler (`webhook`).

External effects are made explicit parameters:
  * a provider call adapter is a function `String → String → Option String`
    (provider name, api key ↦ `some articleText` on a successful HTTP call,
    `none` when the call raises — network error, non-200, bad body);
  * downloaded/decoded media arrive as `Option` values (`none` models the
    decode/rasterize exception paths).
-/

namespace ArticleBot

/-- Python `str.strip()` on the character list: drop whitespace from both
ends (used by `api_key.strip()`, app.py line 226). -/
def stripChars (s : List Char) : List Char :=
  ((s.dropWhile Char.isWhitespace).reverse.dropWhile Char.isWhitespace).reverse

/-- Python `str.strip()`. -/
def pyStrip (s : String) : String := ⟨stripChars s.data⟩

/-- Python `str.split(',')` on the character list: split at every comma,
keeping empty pieces; the empty string yields one empty piece. -/
def splitCommaChars : List Char → List (List Char)
  | [] => [[]]
  | c :: rest =>
    let r := splitCommaChars rest
    if c = ',' then [] :: r
    else
      match r with
      | [] => [[c]]
      | w :: ws => (c :: w) :: ws

/-- Python `str.split(',')` (used to parse the `*_KEYS` environment
variables, app.py lines 20, 25, 31). -/
def pySplitComma (s : String) : List String :=
  (splitCommaChars s.data).map (fun l => ⟨l⟩)

/-- One entry of the `AI_PROVIDERS` dictionary (app.py lines 18-36):
`keys` from the comma-separated environment string, the request `endpoint`,
an optional `model` identifier, and the `active` flag. -/
structure Provider where
  keys : List String
  endpoint : String
  model : Option String
  active : Bool
  deriving DecidableEq

/-- `failed_keys` (app.py line 39): one set of failed api keys per provider
name, modelled as a duplicate-free list valued function. -/
def FailedKeys : Type := String → List String

/-- `failed_keys[provider_name].add(api_key)` (app.py line 242): set add,
a no-op when the key is already present. -/
def addFailed (f : FailedKeys) (p k : String) : FailedKeys :=
  fun q => if q = p then (if k ∈ f p then f p else k :: f p) else f q

/-- The inputs one `extract_event_info` run depends on: the provider
priority order (app.py line 217), the registry, and the adapter behaviour
(`call_gemini` / `call_openrouter` outcomes for this request's image). -/
structure Config where
  order : List String
  providers : String → Provider
  adapter : String → String → Option String

/-- Inner loop of `extract_event_info` (app.py lines 225-243): walk the
provider's key list, skipping a key that is falsy, whitespace-only, or in
`failed_keys[provider_name]`; call the adapter otherwise; on success stop,
on exception add the key to the failed set and continue.  Returns the
optional result, the updated failed sets, and the list of
(provider, key) adapter invocations actually made. -/
def tryKeys (ad : String → String → Option String) (name : String) :
    List String → FailedKeys → Option String × FailedKeys × List (String × String)
  | [], f => (none, f, [])
  | k :: rest, f =>
    if k = "" ∨ pyStrip k = "" ∨ k ∈ f name then
      tryKeys ad name rest f
    else
      match ad name k with
      | some r => (some r, f, [(name, k)])
      | none =>
        let res := tryKeys ad name rest (addFailed f name k)
        (res.1, res.2.1, (name, k) :: res.2.2)

/-- Outer loop of `extract_event_info` (app.py lines 219-243): providers in
priority order, disabled providers skipped entirely. -/
def tryProviders (cfg : Config) : List String → FailedKeys →
    Option String × FailedKeys × List (String × String)
  | [], f => (none, f, [])
  | p :: rest, f =>
    if (cfg.providers p).active then
      let res := tryKeys cfg.adapter p (cfg.providers p).keys f
      match res.1 with
      | some r => (some r, res.2.1, res.2.2)
      | none =>
        let res2 := tryProviders cfg rest res.2.1
        (res2.1, res2.2.1, res.2.2 ++ res2.2.2)
    else tryProviders cfg rest f

/-- The message of the exception raised when every provider/key combination
has been exhausted (app.py line 245). -/
def allProvidersFailedMsg : String :=
  "❌ All AI providers failed. Please verify:\n1. API keys are valid\n2. You have credits/quota remaining\n3. Keys are properly set in environment variables"

/-- Result of one `extract_event_info` call: the returned article text or
the raised exception message, the failed-key state afterwards, and the
adapter invocations made. -/
structure DispatchResult where
  result : Except String String
  failed : FailedKeys
  callLog : List (String × String)

/-- `extract_event_info` (app.py lines 215-245). -/
def extract_event_info (cfg : Config) (f : FailedKeys) : DispatchResult :=
  let res := tryProviders cfg cfg.order f
  ⟨match res.1 with
   | some r => .ok r
   | none => .error allProvidersFailedMsg,
   res.2.1, res.2.2⟩

/-- Process lifetime: the failed-key state after a sequence of
`extract_event_info` calls (each request carries its own adapter outcomes
in its `Config`), starting from state `f`. -/
def runRequests (cfgs : List Config) (f : FailedKeys) : FailedKeys :=
  cfgs.foldl (fun g cfg => (extract_event_info cfg g).failed) f

/-- The empty failed-key state the process starts with (app.py line 39). -/
def emptyFailed : FailedKeys := fun _ => []

/-- The `AI_PROVIDERS` dictionary (app.py lines 18-36) as a function of the
three `*_KEYS` environment strings (unset variables default to `""`). -/
def AI_PROVIDERS (geminiKeys openrouterKeys groqKeys : String) : String → Provider :=
  fun name =>
    if name = "gemini" then
      ⟨pySplitComma geminiKeys,
       "https://generativelanguage.googleapis.com/v1/models/gemini-1.5-flash:generateContent",
       none, true⟩
    else if name = "openrouter" then
      ⟨pySplitComma openrouterKeys,
       "https://openrouter.ai/api/v1/chat/completions",
       some "google/gemini-flash-1.5", true⟩
    else if name = "groq" then
      ⟨pySplitComma groqKeys,
       "https://api.groq.com/openai/v1/chat/completions",
       some "llama-3.2-90b-text-preview", false⟩
    else ⟨[], "", none, false⟩

/-- `providers_order` (app.py line 217): groq removed, gemini first. -/
def providers_order : List String := ["gemini", "openrouter"]

/-- The concrete configuration one request runs with: the fixed priority
order, the registry built from the environment strings, and the adapter
outcomes for this request's image. -/
def mkConfig (g o q : String) (ad : String → String → Option String) : Config :=
  ⟨providers_order, AI_PROVIDERS g o q, ad⟩

/-! ## Media Normalizer -/

/-- The value produced by the normalizers: dimensions of the encoded
bitmap, the JPEG quality used, and the fact that the bytes were
base64-encoded to text. -/
structure EncodedImagePayload where
  width : Nat
  height : Nat
  quality : Nat
  base64 : Bool
  deriving DecidableEq

/-- Rounding used by Pillow `Image.thumbnail` when fitting one side:
nearest integer to `num / den`, ties toward the floor. -/
def roundAspect (num den : Nat) : Nat :=
  if 2 * (num % den) ≤ den then num / den else num / den + 1

/-- Modelled from Pillow `Image.thumbnail((2000, 2000), LANCZOS)`
(app.py line 86): dimensions unchanged when both fit in the box;
otherwise the longer side becomes 2000 and the other side is the aspect
rounding of it, clamped to at least 1. -/
def thumbnailDims (w h : Nat) : Nat × Nat :=
  if w ≤ 2000 ∧ h ≤ 2000 then (w, h)
  else if w ≤ h then (max 1 (roundAspect (2000 * w) h), 2000)
  else (2000, max 1 (roundAspect (2000 * h) w))

/-- `image_to_base64` (app.py lines 80-94).  The input is the decoded
bitmap's dimensions, `none` when `Image.open` raises (undecodable bytes);
the resize is applied only when a dimension exceeds 2000 (line 85), then
the bitmap is saved as quality-90 JPEG and base64-encoded. -/
def image_to_base64 (img : Option (Nat × Nat)) : Option EncodedImagePayload :=
  match img with
  | none => none
  | some (w, h) =>
    let d := if 2000 < w ∨ 2000 < h then thumbnailDims w h else (w, h)
    some ⟨d.1, d.2, 90, true⟩

/-- `convert_from_bytes(pdf_bytes, first_page=1, last_page=1)`
(app.py line 70): rasterize only the first page; a page is represented by
its bitmap dimensions. -/
def convert_from_bytes_firstPage (pages : List (Nat × Nat)) : List (Nat × Nat) :=
  pages.take 1

/-- `pdf_to_images` (app.py lines 66-78).  The input is the document's
page list, `none` when rasterization raises (corrupt file); an empty page
list falls through to `return None`; otherwise `images[0]` is saved as
quality-95 JPEG and base64-encoded. -/
def pdf_to_images (doc : Option (List (Nat × Nat))) : Option EncodedImagePayload :=
  match doc with
  | none => none
  | some pages =>
    match convert_from_bytes_firstPage pages with
    | [] => none
    | p :: _ => some ⟨p.1, p.2, 95, true⟩

/-! ## Webhook handler -/

/-- The shape of an inbound Telegram update, as `webhook` distinguishes
them (app.py lines 250-325).  Media carry the outcome of the download and
decode steps: `photo (some (w, h))` is a downloaded image that decoded to
a `w × h` bitmap, `photo none` one whose decoding raises;
`photoDownloadFail` / `pdfDownloadFail` model `download_file` raising. -/
inductive Incoming where
  | noMessage
  | startCmd
  | helpCmd
  | otherText
  | photo (decoded : Option (Nat × Nat))
  | photoDownloadFail
  | pdfDoc (pages : Option (List (Nat × Nat)))
  | pdfDownloadFail
  | otherDoc
  deriving DecidableEq

/-- The outbound Telegram messages `webhook` can send, in source order:
the welcome and help texts (lines 261, 278), the two processing notices
(lines 303, 312), the PDF conversion failure text (line 318), the
non-image/non-PDF warnings (lines 321, 324), the generated article and
the success note (lines 331-332), and the error text wrapping the
exception message (line 334). -/
inductive Outbound where
  | welcome
  | helpMsg
  | processingImage
  | processingPdf
  | pdfFail
  | notImagePdf
  | sendPoster
  | article (text : String)
  | successNote
  | errorNote (cause : String)
  deriving DecidableEq

/-- Everything observable about one `webhook` call: the HTTP response
(`ok` JSON field and status code), the messages sent to the chat, the
provider adapter invocations made, and the failed-key state afterwards. -/
structure WebhookResult where
  okField : Bool
  status : Nat
  sent : List Outbound
  callLog : List (String × String)
  failed : FailedKeys

/-- `webhook` (app.py lines 247-342).  Every return point of the handler
is `jsonify({'ok': True})` with status 200, including the outer exception
handler; conversion failure of a photo falls through the
`if base64_image:` guard at line 328 with no message, while the PDF
branch sends an explicit failure message (line 318). -/
def webhook (cfg : Config) (f : FailedKeys) (inc : Incoming) : WebhookResult :=
  match inc with
  | .noMessage => ⟨true, 200, [], [], f⟩
  | .startCmd => ⟨true, 200, [.welcome], [], f⟩
  | .helpCmd => ⟨true, 200, [.helpMsg], [], f⟩
  | .otherText => ⟨true, 200, [.sendPoster], [], f⟩
  | .otherDoc => ⟨true, 200, [.notImagePdf], [], f⟩
  | .photoDownloadFail => ⟨true, 200, [.processingImage], [], f⟩
  | .pdfDownloadFail => ⟨true, 200, [.processingPdf], [], f⟩
  | .photo d =>
    match image_to_base64 d with
    | none => ⟨true, 200, [.processingImage], [], f⟩
    | some _ =>
      let r := extract_event_info cfg f
      match r.result with
      | .ok a => ⟨true, 200, [.processingImage, .article a, .successNote], r.callLog, r.failed⟩
      | .error e => ⟨true, 200, [.processingImage, .errorNote e], r.callLog, r.failed⟩
  | .pdfDoc pages =>
    match pdf_to_images pages with
    | none => ⟨true, 200, [.processingPdf, .pdfFail], [], f⟩
    | some _ =>
      let r := extract_event_info cfg f
      match r.result with
      | .ok a => ⟨true, 200, [.processingPdf, .article a, .successNote], r.callLog, r.failed⟩
      | .error e => ⟨true, 200, [.processingPdf, .errorNote e], r.callLog, r.failed⟩

/-! ## Concrete instances used by the witnesses -/

/-- A request on a registry with one gemini key `"k1"` whose adapter calls
all fail. -/
def cfgFailAll : Config := mkConfig "k1" "" "" (fun _ _ => none)

/-- A request on the same registry whose adapter calls all succeed. -/
def cfgOkOne : Config := mkConfig "k1" "" "" (fun _ _ => some "ART")

/-- A request where gemini has keys `"b1", "b2"` that fail and openrouter
has key `"g1"` that succeeds. -/
def cfgTwoProviders : Config :=
  mkConfig "b1,b2" "g1" ""
    (fun name _ => if name = "openrouter" then some "ART" else none)

/-- A request where every enabled provider has only blank credentials
(all `*_KEYS` variables unset). -/
def cfgBlankKeys : Config := mkConfig "" "" "" (fun _ _ => some "X")

/-! ## Lemmas about the failed-key state -/

@[simp] theorem extract_failed_eq (cfg : Config) (f : FailedKeys) :
    (extract_event_info cfg f).failed = (tryProviders cfg cfg.order f).2.1 := rfl

@[simp] theorem extract_log_eq (cfg : Config) (f : FailedKeys) :
    (extract_event_info cfg f).callLog = (tryProviders cfg cfg.order f).2.2 := rfl

theorem extract_result_eq (cfg : Config) (f : FailedKeys) :
    (extract_event_info cfg f).result =
      match (tryProviders cfg cfg.order f).1 with
      | some r => Except.ok r
      | none => Except.error allProvidersFailedMsg := rfl

theorem addFailed_eq_of_ne {f : FailedKeys} {p k q : String} (hqp : q ≠ p) :
    addFailed f p k q = f q := by
  unfold addFailed; rw [if_neg hqp]

theorem addFailed_self_eq {f : FailedKeys} {p k : String} :
    addFailed f p k p = if k ∈ f p then f p else k :: f p := by
  unfold addFailed; rw [if_pos rfl]

theorem mem_addFailed {f : FailedKeys} {p k q x : String} :
    x ∈ addFailed f p k q ↔ x ∈ f q ∨ (q = p ∧ x = k) := by
  by_cases hqp : q = p
  · subst hqp
    rw [addFailed_self_eq]
    by_cases hk : k ∈ f q
    · rw [if_pos hk]
      constructor
      · exact fun h => Or.inl h
      · intro h
        cases h with
        | inl h => exact h
        | inr h => rw [h.2]; exact hk
    · rw [if_neg hk, List.mem_cons]
      constructor
      · intro h
        cases h with
        | inl h => exact Or.inr ⟨rfl, h⟩
        | inr h => exact Or.inl h
      · intro h
        cases h with
        | inl h => exact Or.inr h
        | inr h => exact Or.inl h.2
  · rw [addFailed_eq_of_ne hqp]
    simp [hqp]

theorem addFailed_mono {f : FailedKeys} {p k q x : String} (h : x ∈ f q) :
    x ∈ addFailed f p k q := mem_addFailed.mpr (Or.inl h)

theorem mem_addFailed_self {f : FailedKeys} {p k : String} :
    k ∈ addFailed f p k p := mem_addFailed.mpr (Or.inr ⟨rfl, rfl⟩)

theorem addFailed_idem (f : FailedKeys) (p k : String) :
    addFailed (addFailed f p k) p k = addFailed f p k := by
  funext q
  unfold addFailed
  by_cases hqp : q = p
  · subst hqp
    have hmem : k ∈ (if k ∈ f q then f q else k :: f q) := by
      by_cases hk : k ∈ f q
      · simpa [if_pos hk]
      · simp [if_neg hk]
    simp [if_pos hmem]
  · simp [if_neg hqp]

/-! ## Monotonicity: the failed-key state only grows -/

theorem tryKeys_failed_mono (ad : String → String → Option String) (name : String)
    (keys : List String) (f : FailedKeys) {q x : String} (h : x ∈ f q) :
    x ∈ (tryKeys ad name keys f).2.1 q := by
  induction keys generalizing f with
  | nil => exact h
  | cons k rest ih =>
    simp only [tryKeys]
    by_cases hskip : k = "" ∨ pyStrip k = "" ∨ k ∈ f name
    · rw [if_pos hskip]; exact ih f h
    · rw [if_neg hskip]
      cases had : ad name k with
      | some r => exact h
      | none => exact ih (addFailed f name k) (addFailed_mono h)

theorem tryProviders_failed_mono (cfg : Config) (order : List String)
    (f : FailedKeys) {q x : String} (h : x ∈ f q) :
    x ∈ (tryProviders cfg order f).2.1 q := by
  induction order generalizing f with
  | nil => exact h
  | cons p rest ih =>
    simp only [tryProviders]
    by_cases hact : (cfg.providers p).active = true
    · rw [if_pos hact]
      cases hres : (tryKeys cfg.adapter p (cfg.providers p).keys f).1 with
      | some r => exact tryKeys_failed_mono cfg.adapter p (cfg.providers p).keys f h
      | none =>
        exact ih _ (tryKeys_failed_mono cfg.adapter p (cfg.providers p).keys f h)
    · rw [if_neg hact]; exact ih f h

theorem extract_failed_mono (cfg : Config) (f : FailedKeys) {q x : String}
    (h : x ∈ f q) : x ∈ (extract_event_info cfg f).failed q := by
  rw [extract_failed_eq]
  exact tryProviders_failed_mono cfg cfg.order f h

theorem runRequests_failed_mono (cfgs : List Config) (f : FailedKeys)
    {q x : String} (h : x ∈ f q) : x ∈ runRequests cfgs f q := by
  induction cfgs generalizing f with
  | nil => exact h
  | cons cfg rest ih => exact ih _ (extract_failed_mono cfg f h)

/-! ## Soundness of the call log: what an adapter invocation implies -/

theorem tryKeys_log_sound (ad : String → String → Option String) (name : String)
    (keys : List String) (f : FailedKeys) {p x : String}
    (h : (p, x) ∈ (tryKeys ad name keys f).2.2) :
    p = name ∧ x ∈ keys ∧ x ≠ "" ∧ pyStrip x ≠ "" ∧ x ∉ f name := by
  induction keys generalizing f with
  | nil => simp [tryKeys] at h
  | cons k rest ih =>
    simp only [tryKeys] at h
    by_cases hskip : k = "" ∨ pyStrip k = "" ∨ k ∈ f name
    · rw [if_pos hskip] at h
      obtain ⟨hp, hmem, hrest⟩ := ih f h
      exact ⟨hp, List.mem_cons_of_mem _ hmem, hrest⟩
    · rw [if_neg hskip] at h
      push_neg at hskip
      obtain ⟨hk1, hk2, hk3⟩ := hskip
      cases had : ad name k with
      | some r =>
        rw [had] at h
        simp only [List.mem_singleton, Prod.mk.injEq] at h
        obtain ⟨rfl, rfl⟩ := h
        exact ⟨rfl, List.mem_cons_self _ _, hk1, hk2, hk3⟩
      | none =>
        rw [had] at h
        simp only [List.mem_cons, Prod.mk.injEq] at h
        rcases h with ⟨rfl, rfl⟩ | h
        · exact ⟨rfl, List.mem_cons_self _ _, hk1, hk2, hk3⟩
        · obtain ⟨hp, hmem, hx1, hx2, hx3⟩ := ih (addFailed f name k) h
          refine ⟨hp, List.mem_cons_of_mem _ hmem, hx1, hx2, fun hc => hx3 ?_⟩
          exact addFailed_mono hc

theorem tryProviders_log_sound (cfg : Config) (order : List String)
    (f : FailedKeys) {p x : String}
    (h : (p, x) ∈ (tryProviders cfg order f).2.2) :
    p ∈ order ∧ (cfg.providers p).active = true ∧ x ∈ (cfg.providers p).keys ∧
      x ≠ "" ∧ pyStrip x ≠ "" ∧ x ∉ f p := by
  induction order generalizing f with
  | nil => simp [tryProviders] at h
  | cons q rest ih =>
    simp only [tryProviders] at h
    by_cases hact : (cfg.providers q).active = true
    · rw [if_pos hact] at h
      cases hres : (tryKeys cfg.adapter q (cfg.providers q).keys f).1 with
      | some r =>
        rw [hres] at h
        obtain ⟨rfl, hmem, hx⟩ := tryKeys_log_sound cfg.adapter q _ f h
        exact ⟨List.mem_cons_self _ _, hact, hmem, hx⟩
      | none =>
        rw [hres] at h
        simp only [List.mem_append] at h
        rcases h with h | h
        · obtain ⟨rfl, hmem, hx⟩ := tryKeys_log_sound cfg.adapter q _ f h
          exact ⟨List.mem_cons_self _ _, hact, hmem, hx⟩
        · obtain ⟨hmem, hact2, hkey, hx1, hx2, hx3⟩ := ih _ h
          refine ⟨List.mem_cons_of_mem _ hmem, hact2, hkey, hx1, hx2, fun hc => hx3 ?_⟩
          exact tryKeys_failed_mono cfg.adapter q (cfg.providers q).keys f hc
    · rw [if_neg hact] at h
      obtain ⟨hmem, hx⟩ := ih f h
      exact ⟨List.mem_cons_of_mem _ hmem, hx⟩

theorem extract_log_sound (cfg : Config) (f : FailedKeys) {p x : String}
    (h : (p, x) ∈ (extract_event_info cfg f).callLog) :
    p ∈ cfg.order ∧ (cfg.providers p).active = true ∧
      x ∈ (cfg.providers p).keys ∧ x ≠ "" ∧ pyStrip x ≠ "" ∧ x ∉ f p := by
  rw [extract_log_eq] at h
  exact tryProviders_log_sound cfg cfg.order f h

/-! ## Where failed keys come from: only a failing adapter call adds one -/

theorem tryKeys_failed_char (ad : String → String → Option String) (name : String)
    (keys : List String) (f : FailedKeys) {q x : String}
    (h : x ∈ (tryKeys ad name keys f).2.1 q) :
    x ∈ f q ∨ ((q, x) ∈ (tryKeys ad name keys f).2.2 ∧ ad q x = none) := by
  induction keys generalizing f with
  | nil => exact Or.inl h
  | cons k rest ih =>
    simp only [tryKeys] at h ⊢
    by_cases hskip : k = "" ∨ pyStrip k = "" ∨ k ∈ f name
    · rw [if_pos hskip] at h ⊢
      exact ih f h
    · rw [if_neg hskip] at h ⊢
      cases had : ad name k with
      | some r =>
        rw [had] at h
        exact Or.inl h
      | none =>
        rw [had] at h
        have h' : x ∈ (tryKeys ad name rest (addFailed f name k)).2.1 q := h
        rcases ih (addFailed f name k) h' with hmem | ⟨hlog, hnone⟩
        · rcases mem_addFailed.mp hmem with hmem2 | ⟨rfl, rfl⟩
          · exact Or.inl hmem2
          · exact Or.inr ⟨List.mem_cons_self _ _, had⟩
        · exact Or.inr ⟨List.mem_cons_of_mem _ hlog, hnone⟩

theorem tryProviders_failed_char (cfg : Config) (order : List String)
    (f : FailedKeys) {q x : String}
    (h : x ∈ (tryProviders cfg order f).2.1 q) :
    x ∈ f q ∨ ((q, x) ∈ (tryProviders cfg order f).2.2 ∧ cfg.adapter q x = none) := by
  induction order generalizing f with
  | nil => exact Or.inl h
  | cons p rest ih =>
    simp only [tryProviders] at h ⊢
    by_cases hact : (cfg.providers p).active = true
    · rw [if_pos hact] at h ⊢
      cases hres : (tryKeys cfg.adapter p (cfg.providers p).keys f).1 with
      | some r =>
        rw [hres] at h
        have h' : x ∈ (tryKeys cfg.adapter p (cfg.providers p).keys f).2.1 q := h
        rcases tryKeys_failed_char cfg.adapter p _ f h' with hmem | ⟨hlog, hnone⟩
        · exact Or.inl hmem
        · exact Or.inr ⟨hlog, hnone⟩
      | none =>
        rw [hres] at h
        have h' : x ∈
            (tryProviders cfg rest
              (tryKeys cfg.adapter p (cfg.providers p).keys f).2.1).2.1 q := h
        rcases ih _ h' with hmem | ⟨hlog, hnone⟩
        · rcases tryKeys_failed_char cfg.adapter p _ f hmem with hmem2 | ⟨hlog2, hnone2⟩
          · exact Or.inl hmem2
          · exact Or.inr ⟨List.mem_append_left _ hlog2, hnone2⟩
        · exact Or.inr ⟨List.mem_append_right _ hlog, hnone⟩
    · rw [if_neg hact] at h ⊢
      exact ih f h

theorem extract_failed_char (cfg : Config) (f : FailedKeys) {q x : String}
    (h : x ∈ (extract_event_info cfg f).failed q) :
    x ∈ f q ∨
      ((q, x) ∈ (extract_event_info cfg f).callLog ∧ cfg.adapter q x = none) := by
  rw [extract_failed_eq] at h
  rw [extract_log_eq]
  exact tryProviders_failed_char cfg cfg.order f h

/-! ## Frame: a run in which no adapter call fails leaves the state alone -/

theorem tryKeys_failed_frame (ad : String → String → Option String) (name : String)
    (keys : List String) (f : FailedKeys)
    (h : ∀ p x, (p, x) ∈ (tryKeys ad name keys f).2.2 → ad p x ≠ none) :
    (tryKeys ad name keys f).2.1 = f := by
  induction keys generalizing f with
  | nil => rfl
  | cons k rest ih =>
    simp only [tryKeys] at h ⊢
    by_cases hskip : k = "" ∨ pyStrip k = "" ∨ k ∈ f name
    · rw [if_pos hskip] at h ⊢
      exact ih f h
    · rw [if_neg hskip] at h ⊢
      cases had : ad name k with
      | some r => rfl
      | none =>
        rw [had] at h
        exact absurd had (h name k (List.mem_cons_self _ _))

theorem tryProviders_failed_frame (cfg : Config) (order : List String)
    (f : FailedKeys)
    (h : ∀ p x, (p, x) ∈ (tryProviders cfg order f).2.2 → cfg.adapter p x ≠ none) :
    (tryProviders cfg order f).2.1 = f := by
  induction order generalizing f with
  | nil => rfl
  | cons p rest ih =>
    simp only [tryProviders] at h ⊢
    by_cases hact : (cfg.providers p).active = true
    · rw [if_pos hact] at h ⊢
      cases hres : (tryKeys cfg.adapter p (cfg.providers p).keys f).1 with
      | some r =>
        rw [hres] at h
        show (tryKeys cfg.adapter p (cfg.providers p).keys f).2.1 = f
        exact tryKeys_failed_frame cfg.adapter p _ f h
      | none =>
        rw [hres] at h
        have hkeys : (tryKeys cfg.adapter p (cfg.providers p).keys f).2.1 = f :=
          tryKeys_failed_frame cfg.adapter p _ f
            (fun a b hab => h a b (List.mem_append_left _ hab))
        show (tryProviders cfg rest
          (tryKeys cfg.adapter p (cfg.providers p).keys f).2.1).2.1 = f
        rw [hkeys]
        have h2 : ∀ a b, (a, b) ∈ (tryProviders cfg rest f).2.2 →
            cfg.adapter a b ≠ none := by
          intro a b hab
          apply h a b
          show (a, b) ∈ (tryKeys cfg.adapter p (cfg.providers p).keys f).2.2 ++
            (tryProviders cfg rest
              (tryKeys cfg.adapter p (cfg.providers p).keys f).2.1).2.2
          rw [hkeys]
          exact List.mem_append_right _ hab
        exact ih f h2
    · rw [if_neg hact] at h ⊢
      exact ih f h

/-! ## Exhaustion: unusable credentials mean no adapter call at all -/

theorem tryKeys_exhausted (ad : String → String → Option String) (name : String)
    (keys : List String) (f : FailedKeys)
    (h : ∀ k ∈ keys, k = "" ∨ pyStrip k = "" ∨ k ∈ f name) :
    tryKeys ad name keys f = (none, f, []) := by
  induction keys with
  | nil => rfl
  | cons k rest ih =>
    simp only [tryKeys]
    rw [if_pos (h k (List.mem_cons_self _ _))]
    exact ih (fun a ha => h a (List.mem_cons_of_mem _ ha))

theorem tryProviders_exhausted (cfg : Config) (order : List String) (f : FailedKeys)
    (h : ∀ p ∈ order, (cfg.providers p).active = false ∨
          ∀ k ∈ (cfg.providers p).keys, k = "" ∨ pyStrip k = "" ∨ k ∈ f p) :
    tryProviders cfg order f = (none, f, []) := by
  induction order with
  | nil => rfl
  | cons p rest ih =>
    simp only [tryProviders]
    rcases h p (List.mem_cons_self _ _) with hact | hkeys
    · rw [if_neg (by simp [hact])]
      exact ih (fun a ha => h a (List.mem_cons_of_mem _ ha))
    · by_cases hact : (cfg.providers p).active = true
      · rw [if_pos hact, tryKeys_exhausted cfg.adapter p _ f hkeys]
        rw [ih (fun a ha => h a (List.mem_cons_of_mem _ ha))]
        rfl
      · rw [if_neg hact]
        exact ih (fun a ha => h a (List.mem_cons_of_mem _ ha))

/-! ## Disabled providers are skipped without effect -/

theorem tryProviders_inactive_append (cfg : Config) (l rest : List String)
    (f : FailedKeys) (h : ∀ p ∈ l, (cfg.providers p).active = false) :
    tryProviders cfg (l ++ rest) f = tryProviders cfg rest f := by
  induction l with
  | nil => rfl
  | cons p tl ih =>
    simp only [List.cons_append, tryProviders]
    rw [if_neg (by simp [h p (List.mem_cons_self _ _)])]
    exact ih (fun a ha => h a (List.mem_cons_of_mem _ ha))

/-! ## Step equations used to compute concrete dispatcher runs -/

theorem tryKeys_cons_fail (ad : String → String → Option String)
    (name k : String) (rest : List String) (f : FailedKeys)
    (hu : ¬(k = "" ∨ pyStrip k = "" ∨ k ∈ f name)) (had : ad name k = none) :
    tryKeys ad name (k :: rest) f =
      ((tryKeys ad name rest (addFailed f name k)).1,
       (tryKeys ad name rest (addFailed f name k)).2.1,
       (name, k) :: (tryKeys ad name rest (addFailed f name k)).2.2) := by
  simp only [tryKeys]
  rw [if_neg hu, had]

theorem tryKeys_cons_ok (ad : String → String → Option String)
    (name k r : String) (rest : List String) (f : FailedKeys)
    (hu : ¬(k = "" ∨ pyStrip k = "" ∨ k ∈ f name)) (had : ad name k = some r) :
    tryKeys ad name (k :: rest) f = (some r, f, [(name, k)]) := by
  simp only [tryKeys]
  rw [if_neg hu, had]

theorem tryProviders_cons_none (cfg : Config) (p : String) (rest : List String)
    (f : FailedKeys) (hact : (cfg.providers p).active = true)
    (hres : (tryKeys cfg.adapter p (cfg.providers p).keys f).1 = none) :
    tryProviders cfg (p :: rest) f =
      ((tryProviders cfg rest (tryKeys cfg.adapter p (cfg.providers p).keys f).2.1).1,
       (tryProviders cfg rest (tryKeys cfg.adapter p (cfg.providers p).keys f).2.1).2.1,
       (tryKeys cfg.adapter p (cfg.providers p).keys f).2.2 ++
         (tryProviders cfg rest
           (tryKeys cfg.adapter p (cfg.providers p).keys f).2.1).2.2) := by
  simp only [tryProviders]
  rw [if_pos hact, hres]

theorem tryProviders_cons_some (cfg : Config) (p r : String) (rest : List String)
    (f : FailedKeys) (hact : (cfg.providers p).active = true)
    (hres : (tryKeys cfg.adapter p (cfg.providers p).keys f).1 = some r) :
    tryProviders cfg (p :: rest) f =
      (some r, (tryKeys cfg.adapter p (cfg.providers p).keys f).2.1,
       (tryKeys cfg.adapter p (cfg.providers p).keys f).2.2) := by
  simp only [tryProviders]
  rw [if_pos hact, hres]

/-! ## Process lifetime -/

theorem runRequests_append (l1 l2 : List Config) (f : FailedKeys) :
    runRequests (l1 ++ l2) f = runRequests l2 (runRequests l1 f) := by
  unfold runRequests
  rw [List.foldl_append]

/-! ## Rounding facts for the thumbnail model -/

theorem roundAspect_ge_div (num den : Nat) : num / den ≤ roundAspect num den := by
  unfold roundAspect
  split
  · exact le_rfl
  · exact Nat.le_succ _

theorem roundAspect_le_div_succ (num den : Nat) :
    roundAspect num den ≤ num / den + 1 := by
  unfold roundAspect
  split
  · exact Nat.le_succ _
  · exact le_rfl

theorem clampRound_bounds (num den : Nat) (hden : 0 < den) :
    max 1 (roundAspect num den) * den ≤ num + den ∧
      num ≤ max 1 (roundAspect num den) * den + den := by
  set m := max 1 (roundAspect num den) with hm
  have hq1 : num / den ≤ m :=
    le_trans (roundAspect_ge_div num den) (le_max_right _ _)
  have hq2 : m ≤ num / den + 1 := by
    rw [hm]
    apply max_le
    · exact Nat.succ_le_succ (Nat.zero_le _)
    · exact roundAspect_le_div_succ num den
  constructor
  · calc m * den ≤ (num / den + 1) * den := mul_le_mul_right' hq2 den
      _ = num / den * den + den := by rw [Nat.succ_mul]
      _ ≤ num + den := Nat.add_le_add_right (Nat.div_mul_le_self num den) den
  · have e := Nat.div_add_mod num den
    have hmod : num % den < den := Nat.mod_lt _ hden
    have h1 : den * (num / den) ≤ den * m := mul_le_mul_left' hq1 den
    calc num = den * (num / den) + num % den := e.symm
      _ ≤ den * m + den := Nat.add_le_add h1 (le_of_lt hmod)
      _ = m * den + den := by rw [Nat.mul_comm]

theorem clampRound_le_2000 {w h : Nat} (hwh : w ≤ h) (hh : 0 < h) :
    max 1 (roundAspect (2000 * w) h) ≤ 2000 := by
  have hq : 2000 * w / h ≤ 2000 := by
    calc 2000 * w / h ≤ 2000 * h / h := Nat.div_le_div_right (mul_le_mul_left' hwh 2000)
      _ = 2000 := Nat.mul_div_cancel 2000 hh
  apply max_le
  · omega
  · unfold roundAspect
    split
    · exact hq
    · rename_i hmod
      by_contra hcon
      push_neg at hcon
      have hq2000 : 2000 * w / h = 2000 := le_antisymm hq (by omega)
      have hle : 2000 * h ≤ 2000 * w :=
        (Nat.le_div_iff_mul_le hh).mp (le_of_eq hq2000.symm)
      have hwh2 : h ≤ w := le_of_mul_le_mul_left hle (by omega)
      have heq : w = h := le_antisymm hwh hwh2
      have hzero : 2000 * w % h = 0 := by
        rw [heq]
        exact Nat.mul_mod_left 2000 h
      omega

/-! ## Webhook branch equations -/

theorem webhook_photo_noConvert (cfg : Config) (f : FailedKeys)
    (d : Option (Nat × Nat)) (hd : image_to_base64 d = none) :
    webhook cfg f (.photo d) = ⟨true, 200, [.processingImage], [], f⟩ := by
  simp only [webhook]
  rw [hd]

theorem webhook_pdf_noConvert (cfg : Config) (f : FailedKeys)
    (pages : Option (List (Nat × Nat))) (hp : pdf_to_images pages = none) :
    webhook cfg f (.pdfDoc pages) = ⟨true, 200, [.processingPdf, .pdfFail], [], f⟩ := by
  simp only [webhook]
  rw [hp]

/-! ## Claims -/

/-- C2: within one process lifetime, a credential present in a provider's
failed-key set after some prefix of requests is still recorded after any
further requests, and is never passed to that provider's adapter by a
subsequent `extract_event_info` call. -/
theorem failed_key_never_reattempted
    (pre mid : List Config) (cur : Config) (f0 : FailedKeys) (p k : String)
    (hk : k ∈ runRequests pre f0 p) :
    k ∈ runRequests (pre ++ mid) f0 p ∧
    (p, k) ∉ (extract_event_info cur (runRequests (pre ++ mid) f0)).callLog := by
  have hmem : k ∈ runRequests (pre ++ mid) f0 p := by
    rw [runRequests_append]
    exact runRequests_failed_mono mid _ hk
  refine ⟨hmem, fun hcon => ?_⟩
  obtain ⟨-, -, -, -, -, hnot⟩ := extract_log_sound cur _ hcon
  exact hnot hmem

/-- C2 witness: after the key "k1" fails once, a repeat request does not
attempt it again. -/
theorem failed_key_never_reattempted_witness :
    "k1" ∈ runRequests [cfgFailAll] emptyFailed "gemini" ∧
    ("k1" ∈ runRequests ([cfgFailAll] ++ []) emptyFailed "gemini" ∧
     ("gemini", "k1") ∉
       (extract_event_info cfgFailAll
         (runRequests ([cfgFailAll] ++ []) emptyFailed)).callLog) :=
  ⟨by decide,
   failed_key_never_reattempted [cfgFailAll] [] cfgFailAll emptyFailed "gemini" "k1"
     (by decide)⟩

/-- C3: when every provider in the order is disabled or has only blank or
already-failed credentials, `extract_event_info` makes no adapter call,
leaves the failed-key state unchanged, and raises the summary message. -/
theorem exhausted_no_call_error (cfg : Config) (f : FailedKeys)
    (h : ∀ p ∈ cfg.order, (cfg.providers p).active = false ∨
          ∀ k ∈ (cfg.providers p).keys, k = "" ∨ pyStrip k = "" ∨ k ∈ f p) :
    (extract_event_info cfg f).result = Except.error allProvidersFailedMsg ∧
    (extract_event_info cfg f).callLog = [] ∧
    ∀ q, (extract_event_info cfg f).failed q = f q := by
  have ht := tryProviders_exhausted cfg cfg.order f h
  refine ⟨?_, ?_, ?_⟩
  · rw [extract_result_eq, ht]
  · rw [extract_log_eq, ht]
  · intro q
    rw [extract_failed_eq, ht]

/-- C3 witness: with every credential string unset (blank), the dispatcher
raises the summary and the call log is empty. -/
theorem exhausted_no_call_error_witness :
    (extract_event_info cfgBlankKeys emptyFailed).result =
      Except.error allProvidersFailedMsg ∧
    (extract_event_info cfgBlankKeys emptyFailed).callLog = [] ∧
    (extract_event_info cfgBlankKeys emptyFailed).failed "gemini" =
      emptyFailed "gemini" :=
  ⟨(exhausted_no_call_error cfgBlankKeys emptyFailed (by decide)).1,
   (exhausted_no_call_error cfgBlankKeys emptyFailed (by decide)).2.1,
   (exhausted_no_call_error cfgBlankKeys emptyFailed (by decide)).2.2 "gemini"⟩

/-- C6: a provider whose active flag is false is never the provider
component of any adapter invocation, whatever its credentials. -/
theorem disabled_provider_never_called (cfg : Config) (f : FailedKeys)
    (A : String) (hA : (cfg.providers A).active = false) (k : String) :
    (A, k) ∉ (extract_event_info cfg f).callLog := by
  intro hcon
  obtain ⟨-, hact, -⟩ := extract_log_sound cfg f hcon
  rw [hA] at hact
  exact Bool.false_ne_true hact

/-- C6 witness: groq is disabled in the registry, so no groq call is ever
logged. -/
theorem disabled_provider_never_called_witness :
    (cfgFailAll.providers "groq").active = false ∧
    ("groq", "k1") ∉ (extract_event_info cfgFailAll emptyFailed).callLog :=
  ⟨by decide,
   disabled_provider_never_called cfgFailAll emptyFailed "groq" (by decide) "k1"⟩

/-- C7: the failed-key state is add-only across a dispatcher run; a key
appears in the output state only if it was already failed or its logged
adapter call failed; a run in which every logged call succeeded leaves the
state unchanged; and marking a key failed twice is idempotent. -/
theorem failed_keys_frame_conditions (cfg : Config) (f : FailedKeys) :
    (∀ q x, x ∈ f q → x ∈ (extract_event_info cfg f).failed q) ∧
    (∀ q x, x ∈ (extract_event_info cfg f).failed q →
      x ∈ f q ∨
        ((q, x) ∈ (extract_event_info cfg f).callLog ∧ cfg.adapter q x = none)) ∧
    ((∀ p k, (p, k) ∈ (extract_event_info cfg f).callLog → cfg.adapter p k ≠ none) →
      ∀ q, (extract_event_info cfg f).failed q = f q) ∧
    (∀ p k, addFailed (addFailed f p k) p k = addFailed f p k) := by
  refine ⟨?_, ?_, ?_, ?_⟩
  · intro q x hx
    exact extract_failed_mono cfg f hx
  · intro q x hx
    exact extract_failed_char cfg f hx
  · intro hsucc q
    have hfr := tryProviders_failed_frame cfg cfg.order f
      (by
        intro a b hab
        apply hsucc a b
        rw [extract_log_eq]
        exact hab)
    rw [extract_failed_eq, hfr]
  · intro p k
    exact addFailed_idem f p k

/-- C7 witness: a request whose only attempted call succeeds leaves the
gemini failed-key set unchanged. -/
theorem failed_keys_frame_conditions_witness :
    (extract_event_info cfgOkOne emptyFailed).failed "gemini" =
      emptyFailed "gemini" :=
  (failed_keys_frame_conditions cfgOkOne emptyFailed).2.2.1
    (by
      intro p k hmem
      simp [cfgOkOne, mkConfig])
    "gemini"

/-- C9: a PDF whose rasterization raises yields none, a zero-page document
yields none, and a document with at least one page yields the quality-95
payload of page 1 regardless of the remaining pages. -/
theorem pdf_first_page_only :
    pdf_to_images none = none ∧
    pdf_to_images (some []) = none ∧
    ∀ (p : Nat × Nat) (rest : List (Nat × Nat)),
      pdf_to_images (some (p :: rest)) = some ⟨p.1, p.2, 95, true⟩ := by
  refine ⟨rfl, rfl, ?_⟩
  intro p rest
  rfl

/-- C10: every webhook invocation answers with the ok-true JSON body and
HTTP status 200, whatever the update shape, conversion outcome, or
extraction outcome. -/
theorem webhook_always_ok_200 (cfg : Config) (f : FailedKeys) (inc : Incoming) :
    (webhook cfg f inc).okField = true ∧ (webhook cfg f inc).status = 200 := by
  cases inc with
  | photo d =>
    cases hd : image_to_base64 d with
    | none =>
      rw [webhook_photo_noConvert cfg f d hd]
      exact ⟨rfl, rfl⟩
    | some pay =>
      simp only [webhook]
      rw [hd]
      cases hr : (extract_event_info cfg f).result <;> exact ⟨rfl, rfl⟩
  | pdfDoc pages =>
    cases hp : pdf_to_images pages with
    | none =>
      rw [webhook_pdf_noConvert cfg f pages hp]
      exact ⟨rfl, rfl⟩
    | some pay =>
      simp only [webhook]
      rw [hp]
      cases hr : (extract_event_info cfg f).result <;> exact ⟨rfl, rfl⟩
  | noMessage => exact ⟨rfl, rfl⟩
  | startCmd => exact ⟨rfl, rfl⟩
  | helpCmd => exact ⟨rfl, rfl⟩
  | otherText => exact ⟨rfl, rfl⟩
  | otherDoc => exact ⟨rfl, rfl⟩
  | photoDownloadFail => exact ⟨rfl, rfl⟩
  | pdfDownloadFail => exact ⟨rfl, rfl⟩

/-- C1: with provider A before provider B in the priority order (anything
between or before them disabled), A enabled with two usable credentials
whose calls fail and B enabled with one usable credential whose call
succeeds, the dispatcher returns B's result, logs exactly the three
attempts in order (nothing after the first success), and both bad
credentials end up in A's failed-key set. -/
theorem extract_first_success_wins
    (cfg : Config) (f : FailedKeys) (A B bad1 bad2 good1 r : String)
    (pre mid post : List String)
    (horder : cfg.order = pre ++ A :: (mid ++ B :: post))
    (hpre : ∀ p ∈ pre, (cfg.providers p).active = false)
    (hmid : ∀ p ∈ mid, (cfg.providers p).active = false)
    (hAB : A ≠ B)
    (hAact : (cfg.providers A).active = true)
    (hAkeys : (cfg.providers A).keys = [bad1, bad2])
    (hBact : (cfg.providers B).active = true)
    (hBkeys : (cfg.providers B).keys = [good1])
    (hb1 : bad1 ≠ "") (hb1s : pyStrip bad1 ≠ "") (hb1f : bad1 ∉ f A)
    (hb2 : bad2 ≠ "") (hb2s : pyStrip bad2 ≠ "") (hb2f : bad2 ∉ f A)
    (hbb : bad1 ≠ bad2)
    (hg : good1 ≠ "") (hgs : pyStrip good1 ≠ "") (hgf : good1 ∉ f B)
    (had1 : cfg.adapter A bad1 = none)
    (had2 : cfg.adapter A bad2 = none)
    (hadg : cfg.adapter B good1 = some r) :
    (extract_event_info cfg f).result = Except.ok r ∧
    (extract_event_info cfg f).callLog = [(A, bad1), (A, bad2), (B, good1)] ∧
    bad1 ∈ (extract_event_info cfg f).failed A ∧
    bad2 ∈ (extract_event_info cfg f).failed A := by
  have hu1 : ¬(bad1 = "" ∨ pyStrip bad1 = "" ∨ bad1 ∈ f A) := by
    intro hcon
    rcases hcon with h | h | h
    exacts [hb1 h, hb1s h, hb1f h]
  have hu2 : ¬(bad2 = "" ∨ pyStrip bad2 = "" ∨ bad2 ∈ addFailed f A bad1 A) := by
    intro hcon
    rcases hcon with h | h | h
    · exact hb2 h
    · exact hb2s h
    · rcases mem_addFailed.mp h with h2 | h2
      · exact hb2f h2
      · exact hbb h2.2.symm
  have hkA : tryKeys cfg.adapter A (cfg.providers A).keys f =
      (none, addFailed (addFailed f A bad1) A bad2, [(A, bad1), (A, bad2)]) := by
    rw [hAkeys, tryKeys_cons_fail cfg.adapter A bad1 [bad2] f hu1 had1,
        tryKeys_cons_fail cfg.adapter A bad2 [] (addFailed f A bad1) hu2 had2]
    rfl
  have hf2B : addFailed (addFailed f A bad1) A bad2 B = f B := by
    rw [addFailed_eq_of_ne (Ne.symm hAB), addFailed_eq_of_ne (Ne.symm hAB)]
  have hug : ¬(good1 = "" ∨ pyStrip good1 = "" ∨
      good1 ∈ addFailed (addFailed f A bad1) A bad2 B) := by
    intro hcon
    rcases hcon with h | h | h
    · exact hg h
    · exact hgs h
    · rw [hf2B] at h
      exact hgf h
  have hkB : tryKeys cfg.adapter B (cfg.providers B).keys
      (addFailed (addFailed f A bad1) A bad2) =
      (some r, addFailed (addFailed f A bad1) A bad2, [(B, good1)]) := by
    rw [hBkeys,
        tryKeys_cons_ok cfg.adapter B good1 r []
          (addFailed (addFailed f A bad1) A bad2) hug hadg]
  have hmain : tryProviders cfg cfg.order f =
      (some r, addFailed (addFailed f A bad1) A bad2,
       [(A, bad1), (A, bad2), (B, good1)]) := by
    rw [horder, tryProviders_inactive_append cfg pre _ f hpre,
        tryProviders_cons_none cfg A _ f hAact (by rw [hkA]), hkA,
        tryProviders_inactive_append cfg mid _ _ hmid,
        tryProviders_cons_some cfg B r post _ hBact (by rw [hkB]), hkB]
    rfl
  refine ⟨?_, ?_, ?_, ?_⟩
  · rw [extract_result_eq, hmain]
  · rw [extract_log_eq, hmain]
  · rw [extract_failed_eq, hmain]
    exact addFailed_mono mem_addFailed_self
  · rw [extract_failed_eq, hmain]
    exact mem_addFailed_self

/-- C1 witness: gemini keys b1, b2 fail and the openrouter key g1
succeeds; the dispatcher returns openrouter's article after exactly three
attempts and records b1, b2 as failed gemini keys. -/
theorem extract_first_success_wins_witness :
    (extract_event_info cfgTwoProviders emptyFailed).result = Except.ok "ART" ∧
    (extract_event_info cfgTwoProviders emptyFailed).callLog =
      [("gemini", "b1"), ("gemini", "b2"), ("openrouter", "g1")] ∧
    "b1" ∈ (extract_event_info cfgTwoProviders emptyFailed).failed "gemini" ∧
    "b2" ∈ (extract_event_info cfgTwoProviders emptyFailed).failed "gemini" :=
  extract_first_success_wins cfgTwoProviders emptyFailed
    "gemini" "openrouter" "b1" "b2" "g1" "ART" [] [] []
    rfl (by simp) (by simp) (by decide) (by decide) (by decide) (by decide)
    (by decide) (by decide) (by decide) (by decide) (by decide) (by decide)
    (by decide) (by decide) (by decide) (by decide) (by decide) rfl rfl rfl

/-- C4 counterexample: with the gemini credential variable unset the
registry's gemini credentials list contains the empty (blank) entry — the
comma-split is not filtered at parse time. -/
theorem registry_contains_blank_entry :
    "" ∈ ((AI_PROVIDERS "" "x" "y") "gemini").keys := by decide

/-- C4 amended: the parsed credentials lists may contain blank entries,
but the dispatcher skips them, so every credential actually passed to an
adapter on the concrete registry is non-empty and non-blank. -/
theorem blank_keys_skipped_by_dispatcher (g o q : String)
    (ad : String → String → Option String) (f : FailedKeys) (p k : String)
    (h : (p, k) ∈ (extract_event_info (mkConfig g o q ad) f).callLog) :
    k ≠ "" ∧ pyStrip k ≠ "" := by
  obtain ⟨-, -, -, h1, h2, -⟩ := extract_log_sound _ _ h
  exact ⟨h1, h2⟩

/-- C4 witness: the single logged call of a one-key run uses the
non-blank key k1. -/
theorem blank_keys_skipped_by_dispatcher_witness :
    "k1" ≠ "" ∧ pyStrip "k1" ≠ "" :=
  blank_keys_skipped_by_dispatcher "k1" "" "" (fun _ _ => some "ART")
    emptyFailed "gemini" "k1" (by decide)

/-- C5 counterexample: a photo whose bytes cannot be decoded triggers no
provider call, but the only message sent is the initial processing notice
— the user is not informed of the conversion failure (contrast the PDF
branch, which sends an explicit failure message). -/
theorem image_conversion_failure_silent :
    (webhook cfgOkOne emptyFailed (.photo none)).callLog = [] ∧
    (webhook cfgOkOne emptyFailed (.photo none)).sent =
      [Outbound.processingImage] :=
  ⟨rfl, rfl⟩

/-- C5 amended: when the normalizer returns none, no provider call is
attempted; for a PDF the user is informed by the conversion-failure
message, while for a photo only the initial processing notice is sent. -/
theorem conversion_failure_no_provider_call (cfg : Config) (f : FailedKeys) :
    (∀ pages : Option (List (Nat × Nat)), pdf_to_images pages = none →
      (webhook cfg f (.pdfDoc pages)).callLog = [] ∧
      Outbound.pdfFail ∈ (webhook cfg f (.pdfDoc pages)).sent) ∧
    (∀ d : Option (Nat × Nat), image_to_base64 d = none →
      (webhook cfg f (.photo d)).callLog = [] ∧
      (webhook cfg f (.photo d)).sent = [Outbound.processingImage]) := by
  constructor
  · intro pages hp
    rw [webhook_pdf_noConvert cfg f pages hp]
    exact ⟨rfl, by simp⟩
  · intro d hd
    rw [webhook_photo_noConvert cfg f d hd]
    exact ⟨rfl, rfl⟩

/-- C5 witness: a zero-page PDF sends the failure message with no provider
call; an undecodable photo makes no provider call. -/
theorem conversion_failure_no_provider_call_witness :
    ((webhook cfgOkOne emptyFailed (.pdfDoc (some []))).callLog = [] ∧
     Outbound.pdfFail ∈ (webhook cfgOkOne emptyFailed (.pdfDoc (some []))).sent) ∧
    (webhook cfgOkOne emptyFailed (.photo none)).callLog = [] :=
  ⟨(conversion_failure_no_provider_call cfgOkOne emptyFailed).1 (some []) rfl,
   ((conversion_failure_no_provider_call cfgOkOne emptyFailed).2 none rfl).1⟩

/-- C8: a decodable image with both dimensions at most 2000 is passed
through unresized at quality 90; an image exceeding 2000 in either
dimension is resized so the longer output side is exactly 2000 and the
shorter side matches the aspect ratio within one rounding unit, encoded
at quality 90 and base64-encoded. -/
theorem normalizer_resize_spec (w h : Nat) (hw : 0 < w) (hh : 0 < h) :
    (w ≤ 2000 → h ≤ 2000 →
      image_to_base64 (some (w, h)) = some ⟨w, h, 90, true⟩) ∧
    (2000 < w ∨ 2000 < h →
      ∃ pw ph, image_to_base64 (some (w, h)) = some ⟨pw, ph, 90, true⟩ ∧
        max pw ph = 2000 ∧
        min pw ph * max w h ≤ 2000 * min w h + max w h ∧
        2000 * min w h ≤ min pw ph * max w h + max w h) := by
  constructor
  · intro h1 h2
    simp only [image_to_base64]
    rw [if_neg (by omega)]
  · intro hbig
    simp only [image_to_base64]
    rw [if_pos hbig]
    simp only [thumbnailDims]
    rw [if_neg (by omega)]
    by_cases hwh : w ≤ h
    · rw [if_pos hwh]
      have hple : max 1 (roundAspect (2000 * w) h) ≤ 2000 := clampRound_le_2000 hwh hh
      refine ⟨max 1 (roundAspect (2000 * w) h), 2000, rfl, max_eq_right hple, ?_, ?_⟩
      · rw [max_eq_right hwh, min_eq_left hwh, min_eq_left hple]
        exact (clampRound_bounds (2000 * w) h hh).1
      · rw [max_eq_right hwh, min_eq_left hwh, min_eq_left hple]
        exact (clampRound_bounds (2000 * w) h hh).2
    · rw [if_neg hwh]
      push_neg at hwh
      have hhw : h ≤ w := le_of_lt hwh
      have hple : max 1 (roundAspect (2000 * h) w) ≤ 2000 := clampRound_le_2000 hhw hw
      refine ⟨2000, max 1 (roundAspect (2000 * h) w), rfl, max_eq_left hple, ?_, ?_⟩
      · rw [max_eq_left hhw, min_eq_right hhw, min_eq_right hple]
        exact (clampRound_bounds (2000 * h) w hw).1
      · rw [max_eq_left hhw, min_eq_right hhw, min_eq_right hple]
        exact (clampRound_bounds (2000 * h) w hw).2

/-- C8 witness: a 3000 by 1000 image is resized to longer side 2000 with
the aspect bound, at quality 90. -/
theorem normalizer_resize_spec_witness :
    ∃ pw ph, image_to_base64 (some (3000, 1000)) = some ⟨pw, ph, 90, true⟩ ∧
      max pw ph = 2000 ∧
      min pw ph * max 3000 1000 ≤ 2000 * min 3000 1000 + max 3000 1000 ∧
      2000 * min 3000 1000 ≤ min pw ph * max 3000 1000 + max 3000 1000 :=
  (normalizer_resize_spec 3000 1000 (by decide) (by decide)).2 (by decide)

end ArticleBot
